import Mathlib

/-!
Shallow embedding of the cognitive agency layer of `kern/cognitive_agency.c`
(CognuMach).  Pointers to heap structures become numeric identifiers resolved
in explicit stores; C `float` truth components become exact rationals; the
fallible constructors return sum types whose constructors correspond to the
distinct failure branches of the C code (the C functions themselves collapse
every failure branch to a NULL pointer or a `kern_return_t` code).

The C collections are intrusive Mach queues (`kern/queue.h`): each node
embeds one `queue_chain_t` shared by every queue it is ever entered into.
The embedding works at two levels.  Operations whose every touched queue is
coherent (no member's chain has since been re-entered into another queue)
are modelled with list-valued fields.  Operations that re-enter one node
into a second queue re-splice the shared chain and corrupt the first queue;
those are analysed with a pointer-level model of the queue chains
(`QueueState`, at the end of the file).
-/

set_option maxRecDepth 8000

namespace CognitiveAgency

/-- Subset of `kern_return_t` codes used by `cognitive_agency.c`
(`KERN_SUCCESS`, `KERN_INVALID_ARGUMENT`, `KERN_RESOURCE_SHORTAGE`,
`KERN_FAILURE`). -/
inductive KernReturn where
  | success
  | invalidArgument
  | resourceShortage
  | failure
  deriving DecidableEq

/-- Embedding of `cognitive_atom_type_t`. -/
inductive AtomType where
  | concept
  | predicate
  | link
  | value
  | goal
  | belief
  | action
  | schema
  deriving DecidableEq

/-- Embedding of `cognitive_truth_value_t`; the two C floats become exact
rationals, `count` is the observation counter. -/
structure TruthValue where
  strength : ℚ
  confidence : ℚ
  count : ℕ
  deriving DecidableEq

/-- Embedding of `struct cognitive_atom_link`; `target` is the id of the
target atom. -/
structure AtomLink where
  target : ℕ
  link_type : ℕ
  strength : ℚ
  deriving DecidableEq

/-- Embedding of `struct cognitive_atom`.  The collection fields mirror the
fields of the same names in the C struct.  The C collections are intrusive
Mach queues: every atom (and every link record) embeds a single
`queue_chain_t link` field, owned at any moment by whichever queue the node
was most recently entered into.  A list-valued field is therefore a faithful
image of a C queue only while the chain field of every member still belongs
to that queue; every operation modelled on lists in this file reads and
writes only queues with that property.  The operations that re-enter one
node into a second queue (`cognitive_atom_create_link` and the belief/
knowledge splicing inside `cognitive_agent_apply_rules`) are instead
analysed at chain level with the `QueueState` model at the end of the
file. -/
structure Atom where
  id : ℕ
  type : AtomType
  name : String
  truth : TruthValue
  ref_count : ℕ
  outgoing_links : List AtomLink
  incoming_links : List AtomLink
  deriving DecidableEq

/-- The store of live (not yet freed) atoms, in allocation order. -/
abbrev AtomHeap := List Atom

/-- Resolve an atom id in the heap (dereference a pointer). -/
def heapFind (h : AtomHeap) (i : ℕ) : Option Atom :=
  h.find? (fun a => a.id == i)

/-- Mutate the atom with id `i` in place. -/
def heapUpdate (h : AtomHeap) (i : ℕ) (f : Atom → Atom) : AtomHeap :=
  h.map (fun a => if a.id == i then f a else a)

/-- Free the atom with id `i` (ids are unique, being drawn from a
monotonically increasing counter). -/
def heapRemove (h : AtomHeap) (i : ℕ) : AtomHeap :=
  h.filter (fun a => a.id != i)

/-- Embedding of `struct cognitive_atomspace`: the member list holds atom
ids in insertion order. -/
structure Atomspace where
  atoms : List ℕ
  atom_count : ℕ
  max_atoms : ℕ
  deriving DecidableEq

/-- Embedding of `cognitive_atomspace_create`: empty space with the default
capacity 10000. -/
def cognitive_atomspace_create : Atomspace :=
  { atoms := [], atom_count := 0, max_atoms := 10000 }

/-- Result of `cognitive_atom_create`.  The C function returns
`COGNITIVE_ATOM_NULL` on either failure branch; the two failure
constructors record which branch fired, named after the error taxonomy the
specification assigns to them (NULL argument, capacity check). -/
inductive AtomCreateResult where
  | ok (id : ℕ)
  | invalidArgument
  | resourceExhausted
  deriving DecidableEq

/-- Did `cognitive_atom_create` return a non-NULL atom? -/
def AtomCreateResult.isOk : AtomCreateResult → Bool
  | .ok _ => true
  | _ => false

/-- Embedding of `cognitive_atom_create`.  `name = none` models a NULL
`name` pointer (the C code checks only for NULL, never for an empty
string); `name = some s` models a valid pointer to the string `s`, which
`strncpy` truncates to 63 characters.  On success the new atom has
`ref_count = 1`, default truth `(0.5, 0.5, 0)`, and is appended to the
space's member list with `atom_count` incremented. -/
def cognitive_atom_create (space : Atomspace) (heap : AtomHeap)
    (next_atom_id : ℕ) (type : AtomType) (name : Option String) :
    Atomspace × AtomHeap × ℕ × AtomCreateResult :=
  match name with
  | none => (space, heap, next_atom_id, .invalidArgument)
  | some n =>
    if space.max_atoms ≤ space.atom_count then
      (space, heap, next_atom_id, .resourceExhausted)
    else
      let atom : Atom :=
        { id := next_atom_id
          type := type
          name := n.take 63
          truth := { strength := 0.5, confidence := 0.5, count := 0 }
          ref_count := 1
          outgoing_links := []
          incoming_links := [] }
      ({ space with atoms := space.atoms ++ [next_atom_id],
                    atom_count := space.atom_count + 1 },
       heap ++ [atom], next_atom_id + 1, .ok next_atom_id)

/-- Embedding of `cognitive_atom_destroy`: decrement the reference count
and free the atom when it reaches zero.  The C pre-decrement acts on an
`unsigned int` that is at least 1 whenever the atom is still live (the
data-model invariant `ref_count ≥ 1`), in which case `--ref_count > 0` is
exactly `1 < ref_count`.  Freeing does NOT remove the atom's id from any
atomspace member list and does not adjust any `atom_count`: the C function
has no access to the owning space. -/
def cognitive_atom_destroy (heap : AtomHeap) (i : ℕ) : AtomHeap :=
  match heapFind heap i with
  | none => heap
  | some a =>
    if 1 < a.ref_count then
      heapUpdate heap i (fun b => { b with ref_count := b.ref_count - 1 })
    else
      heapRemove heap i

/-- Embedding of `cognitive_atom_set_truth`: validate both components in
`[0,1]`; on success overwrite them and increment the observation count, on
failure leave the atom untouched. -/
def cognitive_atom_set_truth (a : Atom) (strength confidence : ℚ) :
    Atom × KernReturn :=
  if strength < 0 ∨ 1 < strength ∨ confidence < 0 ∨ 1 < confidence then
    (a, .invalidArgument)
  else
    ({ a with truth := { strength := strength, confidence := confidence,
                         count := a.truth.count + 1 } },
     .success)

/-- Number of ids in the space's member list that still resolve to a live
atom (the "live member atoms" of the invariant). -/
def liveMemberCount (space : Atomspace) (heap : AtomHeap) : ℕ :=
  (space.atoms.filter (fun i => (heapFind heap i).isSome)).length

/-- Embedding of `cognitive_agent_state_t`. -/
inductive AgentState where
  | idle
  | reasoning
  | acting
  | learning
  | communicating
  | blocked
  deriving DecidableEq

/-- Embedding of `struct cognitive_message`: sender agent id, content atom
id, priority (always 0), logical timestamp (always 0). -/
structure Message where
  sender : ℕ
  content : ℕ
  priority : ℕ
  timestamp : ℕ
  deriving DecidableEq

/-- Embedding of `struct cognitive_action`.  `precondition` and `effect`
are atom ids (not reference counted by the C code). -/
structure Action where
  name : String
  precondition : ℕ
  effect : ℕ
  cost : ℚ
  priority : ℕ
  completed : Bool
  deriving DecidableEq

/-- Embedding of `struct cognitive_plan`; `goal` is an atom id, the action
queue is held by value (actions are owned by exactly one plan). -/
structure Plan where
  goal : ℕ
  actions : List Action
  action_count : ℕ
  total_cost : ℚ
  valid : Bool
  deriving DecidableEq

/-- Embedding of `struct cognitive_agent`.  Collections of atom references
become lists of atom ids; the plan list holds plan ids resolved in the
global plan store, `current_plan` is a nullable plan id. -/
structure Agent where
  id : ℕ
  name : String
  state : AgentState
  goals : List ℕ
  beliefs : List ℕ
  knowledge : List ℕ
  message_queue : List Message
  message_count : ℕ
  plans : List ℕ
  current_plan : Option ℕ
  reasoning_cycles : ℕ
  actions_executed : ℕ
  messages_processed : ℕ
  messages_sent : ℕ
  deriving DecidableEq

/-- Embedding of `struct cognitive_rule`. -/
structure Rule where
  name : String
  condition_type : AtomType
  conclusion_type : AtomType
  confidence_threshold : ℚ
  times_applied : ℕ
  deriving DecidableEq

/-- Global state: the shared atomspace with its backing atom store and id
counter (post `cognitive_agency_init`), the registered agents, the rule
registry, and the store of allocated plans with its id counter.  Plans are
heap structures referenced by `agent.plans` and `agent.current_plan`; the C
code addresses them by pointer, here by plan id. -/
structure Kern where
  heap : AtomHeap
  next_atom_id : ℕ
  space : Atomspace
  agents : List Agent
  agent_count : ℕ
  rules : List Rule
  rule_count : ℕ
  plan_store : List (ℕ × Plan)
  next_plan_id : ℕ
  deriving DecidableEq

/-- Resolve an agent id in the registry (dereference an agent pointer). -/
def agentFind (l : List Agent) (i : ℕ) : Option Agent :=
  l.find? (fun a => a.id == i)

/-- Mutate the agent with id `i` in place. -/
def agentUpdate (l : List Agent) (i : ℕ) (f : Agent → Agent) : List Agent :=
  l.map (fun a => if a.id == i then f a else a)

/-- Resolve a plan id in the plan store (dereference a plan pointer). -/
def planFind (l : List (ℕ × Plan)) (i : ℕ) : Option Plan :=
  (l.find? (fun p => p.1 == i)).map (fun p => p.2)

/-- Mutate the plan with id `i` in place. -/
def planUpdate (l : List (ℕ × Plan)) (i : ℕ) (f : Plan → Plan) :
    List (ℕ × Plan) :=
  l.map (fun p => if p.1 == i then (p.1, f p.2) else p)

/-- Embedding of `cognitive_agent_send_message`: build the message record,
set the sender to `Communicating` and bump its `messages_sent`, then bump
the content atom's reference count, append the message to the recipient's
FIFO queue, and bump the recipient's `message_count` and
`messages_processed`. -/
def cognitive_agent_send_message (k : Kern) (fromId toId contentId : ℕ) :
    Kern × KernReturn :=
  match agentFind k.agents fromId, agentFind k.agents toId,
        heapFind k.heap contentId with
  | some _, some _, some _ =>
    let msg : Message :=
      { sender := fromId, content := contentId, priority := 0, timestamp := 0 }
    let agents1 := agentUpdate k.agents fromId
      (fun a => { a with state := .communicating,
                         messages_sent := a.messages_sent + 1 })
    let heap1 := heapUpdate k.heap contentId
      (fun a => { a with ref_count := a.ref_count + 1 })
    let agents2 := agentUpdate agents1 toId
      (fun a => { a with message_queue := a.message_queue ++ [msg],
                         message_count := a.message_count + 1,
                         messages_processed := a.messages_processed + 1 })
    ({ k with agents := agents2, heap := heap1 }, .success)
  | _, _, _ => (k, .invalidArgument)

/-- Embedding of `cognitive_agent_receive_message`: an empty queue is not
an error (success with NULL content); otherwise pop the queue head,
decrement `message_count`, free the envelope and hand the content atom id
to the caller. -/
def cognitive_agent_receive_message (k : Kern) (aid : ℕ) :
    Kern × KernReturn × Option ℕ :=
  match agentFind k.agents aid with
  | none => (k, .invalidArgument, none)
  | some ag =>
    match ag.message_queue with
    | [] => (k, .success, none)
    | m :: rest =>
      let agents1 := agentUpdate k.agents aid
        (fun a => { a with message_queue := rest,
                           message_count := a.message_count - 1 })
      ({ k with agents := agents1 }, .success, some m.content)

/-- Embedding of `cognitive_action_create`: NULL name or negative cost is
rejected; otherwise a fresh, uncompleted action with priority 0. -/
def cognitive_action_create (name : Option String) (precondition effect : ℕ)
    (cost : ℚ) : Option Action :=
  match name with
  | none => none
  | some n =>
    if cost < 0 then none
    else some { name := n.take 63, precondition := precondition,
                effect := effect, cost := cost, priority := 0,
                completed := false }

/-- Embedding of `cognitive_plan_create`: allocate an empty valid plan for
the goal and increment the goal atom's reference count. -/
def cognitive_plan_create (heap : AtomHeap) (goalId : ℕ) : AtomHeap × Plan :=
  (heapUpdate heap goalId (fun a => { a with ref_count := a.ref_count + 1 }),
   { goal := goalId, actions := [], action_count := 0, total_cost := 0,
     valid := true })

/-- Embedding of `cognitive_plan_add_action`: append the action and
accumulate `action_count` and `total_cost`. -/
def cognitive_plan_add_action (p : Plan) (a : Action) : Plan :=
  { p with actions := p.actions ++ [a],
           action_count := p.action_count + 1,
           total_cost := p.total_cost + a.cost }

/-- Body of the belief loop of `cognitive_agent_create_plan`: for a belief
with `strength > 0.5` append the two fixed actions "analyze_state"
(cost 1) and "execute_optimization" (cost 2), each with the belief as
precondition and the goal as effect. -/
def createPlanStep (heap : AtomHeap) (goalId : ℕ) (p : Plan) (bid : ℕ) :
    Plan :=
  match heapFind heap bid with
  | none => p
  | some b =>
    if (0.5 : ℚ) < b.truth.strength then
      let p1 :=
        match cognitive_action_create (some "analyze_state") bid goalId 1 with
        | some a1 => cognitive_plan_add_action p a1
        | none => p
      match cognitive_action_create (some "execute_optimization") bid goalId 2 with
      | some a2 => cognitive_plan_add_action p1 a2
      | none => p1
    else p

/-- Embedding of `cognitive_agent_create_plan`: build the plan from the
agent's beliefs, append it to the agent's plan list, and make it current
only when no current plan exists. -/
def cognitive_agent_create_plan (k : Kern) (aid goalId : ℕ) :
    Kern × KernReturn :=
  match agentFind k.agents aid, heapFind k.heap goalId with
  | some ag, some _ =>
    let q := cognitive_plan_create k.heap goalId
    let plan := ag.beliefs.foldl (createPlanStep q.1 goalId) q.2
    let pid := k.next_plan_id
    let agents1 := agentUpdate k.agents aid
      (fun a => { a with plans := a.plans ++ [pid],
                         current_plan :=
                           match a.current_plan with
                           | none => some pid
                           | some c => some c })
    ({ k with heap := q.1, plan_store := k.plan_store ++ [(pid, plan)],
              next_plan_id := pid + 1, agents := agents1 },
     .success)
  | _, _ => (k, .invalidArgument)

/-- Body of the action loop of `cognitive_agent_execute_plan`: thread the
count of newly completed actions while marking each uncompleted action
completed. -/
def executePlanStep (p : ℕ × List Action) (a : Action) : ℕ × List Action :=
  if a.completed then (p.1, p.2 ++ [a])
  else (p.1 + 1, p.2 ++ [{ a with completed := true }])

/-- Embedding of `cognitive_agent_execute_plan`: `KERN_INVALID_ARGUMENT`
without a current plan; otherwise mark every uncompleted action completed,
add the number of newly completed actions to `actions_executed`, and when
that number equals `action_count` invalidate the plan and clear
`current_plan`.  The agent finishes in `Idle`.  (A current plan id always
resolves in the plan store; the unreachable dangling case returns
`KERN_INVALID_ARGUMENT`.) -/
def cognitive_agent_execute_plan (k : Kern) (aid : ℕ) : Kern × KernReturn :=
  match agentFind k.agents aid with
  | none => (k, .invalidArgument)
  | some ag =>
    match ag.current_plan with
    | none => (k, .invalidArgument)
    | some pid =>
      match planFind k.plan_store pid with
      | none => (k, .invalidArgument)
      | some pl =>
        let r := pl.actions.foldl executePlanStep (0, [])
        let planDone := r.1 == pl.action_count
        let pl1 :=
          if planDone then { pl with actions := r.2, valid := false }
          else { pl with actions := r.2 }
        let agents1 := agentUpdate k.agents aid
          (fun a => { a with
              actions_executed := a.actions_executed + r.1,
              current_plan := if planDone then none else a.current_plan,
              state := .idle })
        ({ k with plan_store := planUpdate k.plan_store pid (fun _ => pl1),
                  agents := agents1 },
         .success)

/-- Lock identities relevant to `cognitive_agent_apply_rules`: the
per-agent lock and the process-wide Agency lock. -/
inductive LockId where
  | agentLock (aid : ℕ)
  | agencyLock
  deriving DecidableEq

/-- An acquisition or release event on a lock. -/
inductive LockEvent where
  | acq (l : LockId)
  | rel (l : LockId)
  deriving DecidableEq

/-- Lock event trace of the successful path of
`cognitive_agent_apply_rules` as written in the source:
`simple_lock(&agent->lock)` (line 953), `simple_lock(&global_cognitive_agency.lock)`
(line 957), `simple_unlock(&global_cognitive_agency.lock)` (line 989),
`simple_unlock(&agent->lock)` (line 992).  The early-return paths acquire
no lock at all. -/
def applyRulesLockTrace (aid : ℕ) : List LockEvent :=
  [.acq (.agentLock aid), .acq .agencyLock,
   .rel .agencyLock, .rel (.agentLock aid)]

/-- Is the agency lock? -/
def isAgencyLock : LockId → Bool
  | .agencyLock => true
  | .agentLock _ => false

/-- Is the lock of agent `aid`? -/
def isAgentLock (aid : ℕ) : LockId → Bool
  | .agentLock i => i == aid
  | .agencyLock => false

/-- Number of acquisitions of locks selected by `f` in a trace. -/
def acqCount (f : LockId → Bool) (tr : List LockEvent) : ℕ :=
  (tr.filter (fun e => match e with | .acq l => f l | .rel _ => false)).length

/-- Number of releases of locks selected by `f` in a trace. -/
def relCount (f : LockId → Bool) (tr : List LockEvent) : ℕ :=
  (tr.filter (fun e => match e with | .rel l => f l | .acq _ => false)).length

/-- A lock selected by `f` is held after the first `n` events of the
trace: strictly more acquisitions than releases in that prefix. -/
def heldAfter (tr : List LockEvent) (n : ℕ) (f : LockId → Bool) : Bool :=
  relCount f (tr.take n) < acqCount f (tr.take n)

/-! Helper lemmas about the id-indexed stores. -/

theorem heapFind_update (h : AtomHeap) (i j : ℕ) (f : Atom → Atom)
    (hf : ∀ a, (f a).id = a.id) :
    heapFind (heapUpdate h i f) j =
      (heapFind h j).map (fun a => if a.id == i then f a else a) := by
  unfold heapFind heapUpdate
  rw [List.find?_map]
  have hcomp :
      ((fun a : Atom => a.id == j) ∘
        (fun a : Atom => if a.id == i then f a else a)) =
      (fun a : Atom => a.id == j) := by
    funext a
    by_cases hai : a.id == i <;> simp [Function.comp, hai, hf]
  rw [hcomp]

theorem heapFind_update_self (h : AtomHeap) (i : ℕ) (f : Atom → Atom)
    (hf : ∀ a, (f a).id = a.id) :
    heapFind (heapUpdate h i f) i = (heapFind h i).map f := by
  rw [heapFind_update h i i f hf]
  cases hfind : heapFind h i with
  | none => rfl
  | some a =>
    simp only [heapFind] at hfind
    have ha := List.find?_some hfind
    simp only at ha
    simp only [Option.map_some']
    rw [if_pos ha]

theorem heapFind_update_ne (h : AtomHeap) (i j : ℕ) (f : Atom → Atom)
    (hf : ∀ a, (f a).id = a.id) (hij : j ≠ i) :
    heapFind (heapUpdate h i f) j = heapFind h j := by
  rw [heapFind_update h i j f hf]
  cases hfind : heapFind h j with
  | none => rfl
  | some a =>
    simp only [heapFind] at hfind
    have ha := List.find?_some hfind
    simp only [beq_iff_eq] at ha
    have hne : ¬((a.id == i) = true) := by
      simp only [beq_iff_eq]
      exact ha ▸ hij
    simp only [Option.map_some']
    rw [if_neg hne]

theorem agentFind_update (l : List Agent) (i j : ℕ) (f : Agent → Agent)
    (hf : ∀ a, (f a).id = a.id) :
    agentFind (agentUpdate l i f) j =
      (agentFind l j).map (fun a => if a.id == i then f a else a) := by
  unfold agentFind agentUpdate
  rw [List.find?_map]
  have hcomp :
      ((fun a : Agent => a.id == j) ∘
        (fun a : Agent => if a.id == i then f a else a)) =
      (fun a : Agent => a.id == j) := by
    funext a
    by_cases hai : a.id == i <;> simp [Function.comp, hai, hf]
  rw [hcomp]

theorem agentFind_update_self (l : List Agent) (i : ℕ) (f : Agent → Agent)
    (hf : ∀ a, (f a).id = a.id) :
    agentFind (agentUpdate l i f) i = (agentFind l i).map f := by
  rw [agentFind_update l i i f hf]
  cases hfind : agentFind l i with
  | none => rfl
  | some a =>
    simp only [agentFind] at hfind
    have ha := List.find?_some hfind
    simp only at ha
    simp only [Option.map_some']
    rw [if_pos ha]

theorem agentFind_update_ne (l : List Agent) (i j : ℕ) (f : Agent → Agent)
    (hf : ∀ a, (f a).id = a.id) (hij : j ≠ i) :
    agentFind (agentUpdate l i f) j = agentFind l j := by
  rw [agentFind_update l i j f hf]
  cases hfind : agentFind l j with
  | none => rfl
  | some a =>
    simp only [agentFind] at hfind
    have ha := List.find?_some hfind
    simp only [beq_iff_eq] at ha
    have hne : ¬((a.id == i) = true) := by
      simp only [beq_iff_eq]
      exact ha ▸ hij
    simp only [Option.map_some']
    rw [if_neg hne]

theorem planFind_update_self (l : List (ℕ × Plan)) (i : ℕ) (f : Plan → Plan) :
    planFind (planUpdate l i f) i = (planFind l i).map f := by
  unfold planFind planUpdate
  rw [List.find?_map]
  have hcomp :
      ((fun p : ℕ × Plan => p.1 == i) ∘
        (fun p : ℕ × Plan => if p.1 == i then (p.1, f p.2) else p)) =
      (fun p : ℕ × Plan => p.1 == i) := by
    funext p
    by_cases hp : p.1 == i <;> simp [Function.comp, hp]
  rw [hcomp]
  cases hfind : l.find? (fun p => p.1 == i) with
  | none => rfl
  | some p =>
    have hp := List.find?_some hfind
    simp only at hp
    simp only [Option.map_some']
    rw [if_pos hp]

theorem planFind_append_new (l : List (ℕ × Plan)) (i : ℕ) (p : Plan)
    (hl : ∀ q ∈ l, q.1 ≠ i) :
    planFind (l ++ [(i, p)]) i = some p := by
  unfold planFind
  rw [List.find?_append]
  have h1 : l.find? (fun q : ℕ × Plan => q.1 == i) = none := by
    rw [List.find?_eq_none]
    intro x hx
    simp [hl x hx]
  rw [h1]
  simp [List.find?]

/-! Claim C7: truth-value update. -/

/-- Claim C7: `set_truth(atom, strength, confidence)` succeeds if and only
if both strength and confidence lie in [0,1]; on success the atom's truth
becomes exactly those values and the observation count increases by exactly
1; on out-of-range input it returns InvalidArgument and the atom, its
observation count included, is left unchanged. -/
theorem claim_C7_set_truth (a : Atom) (s c : ℚ) :
    ((cognitive_atom_set_truth a s c).2 = KernReturn.success ↔
      (0 ≤ s ∧ s ≤ 1 ∧ 0 ≤ c ∧ c ≤ 1)) ∧
    (0 ≤ s ∧ s ≤ 1 ∧ 0 ≤ c ∧ c ≤ 1 →
      (cognitive_atom_set_truth a s c).1.truth.strength = s ∧
      (cognitive_atom_set_truth a s c).1.truth.confidence = c ∧
      (cognitive_atom_set_truth a s c).1.truth.count = a.truth.count + 1) ∧
    (¬(0 ≤ s ∧ s ≤ 1 ∧ 0 ≤ c ∧ c ≤ 1) →
      (cognitive_atom_set_truth a s c).2 = KernReturn.invalidArgument ∧
      (cognitive_atom_set_truth a s c).1 = a) := by
  have hcond : (s < 0 ∨ 1 < s ∨ c < 0 ∨ 1 < c) ↔
      ¬(0 ≤ s ∧ s ≤ 1 ∧ 0 ≤ c ∧ c ≤ 1) := by
    constructor
    · rintro (h | h | h | h) ⟨h0, h1, h2, h3⟩ <;> linarith
    · intro hn
      by_contra hd
      push_neg at hd
      exact hn ⟨hd.1, hd.2.1, hd.2.2.1, hd.2.2.2⟩
  by_cases h : s < 0 ∨ 1 < s ∨ c < 0 ∨ 1 < c
  · have hnR := hcond.mp h
    simp only [cognitive_atom_set_truth, if_pos h]
    refine ⟨iff_of_false (by simp) hnR, ?_, ?_⟩
    · intro hR
      exact absurd hR hnR
    · intro _
      exact ⟨by trivial, by trivial⟩
  · have hR : 0 ≤ s ∧ s ≤ 1 ∧ 0 ≤ c ∧ c ≤ 1 := by
      rcases not_or.mp h with ⟨h0, h123⟩
      rcases not_or.mp h123 with ⟨h1, h23⟩
      rcases not_or.mp h23 with ⟨h2, h3⟩
      exact ⟨le_of_not_lt h0, le_of_not_lt h1, le_of_not_lt h2, le_of_not_lt h3⟩
    simp only [cognitive_atom_set_truth, if_neg h]
    refine ⟨iff_of_true (by trivial) hR, ?_, ?_⟩
    · intro _
      exact ⟨by trivial, by trivial, by trivial⟩
    · intro hn
      exact absurd hR hn

/-- Concrete atom used by several witnesses: the "cpu_load" Concept of the
specification's scenario, after `set_truth(0.9, 0.8)`. -/
def atomEx : Atom :=
  { id := 1, type := .concept, name := "cpu_load",
    truth := { strength := 0.9, confidence := 0.8, count := 1 },
    ref_count := 1, outgoing_links := [], incoming_links := [] }

/-- Witness for claim C7 at a concrete in-range input. -/
theorem claim_C7_witness :
    ((0:ℚ) ≤ 0.9 ∧ (0.9:ℚ) ≤ 1 ∧ (0:ℚ) ≤ 0.8 ∧ (0.8:ℚ) ≤ 1) ∧
    ((cognitive_atom_set_truth atomEx 0.9 0.8).1.truth.strength = 0.9 ∧
     (cognitive_atom_set_truth atomEx 0.9 0.8).1.truth.confidence = 0.8 ∧
     (cognitive_atom_set_truth atomEx 0.9 0.8).1.truth.count =
       atomEx.truth.count + 1) :=
  ⟨by norm_num, (claim_C7_set_truth atomEx 0.9 0.8).2.1 (by norm_num)⟩

/-! Claim C3: capacity bound of the atomspace. -/

/-- Iterated `cognitive_atom_create`: `n` successive allocation calls. -/
def createN (space : Atomspace) (heap : AtomHeap) (next_atom_id : ℕ) :
    ℕ → Atomspace × AtomHeap × ℕ
  | 0 => (space, heap, next_atom_id)
  | n + 1 =>
    let r := cognitive_atom_create space heap next_atom_id .concept (some "atom")
    createN r.1 r.2.1 r.2.2.1 n

theorem createN_atom_count (n : ℕ) :
    ∀ (l : List ℕ) (cnt N : ℕ) (heap : AtomHeap) (i : ℕ), cnt ≤ N →
      ((createN ⟨l, cnt, N⟩ heap i n).1.atom_count = min (cnt + n) N ∧
       (createN ⟨l, cnt, N⟩ heap i n).1.max_atoms = N) := by
  induction n with
  | zero =>
    intro l cnt N heap i hle
    refine ⟨?_, rfl⟩
    show cnt = min (cnt + 0) N
    rw [Nat.add_zero, min_eq_left hle]
  | succ m ih =>
    intro l cnt N heap i hle
    by_cases hfull : N ≤ cnt
    · have hcnt : cnt = N := le_antisymm hle hfull
      have hstep : createN ⟨l, cnt, N⟩ heap i (m + 1) =
          createN ⟨l, cnt, N⟩ heap i m := by
        conv_lhs => rw [createN]
        simp [cognitive_atom_create, if_pos hfull]
      subst hcnt
      rw [hstep]
      obtain ⟨h21, h22⟩ := ih l cnt cnt heap i le_rfl
      refine ⟨?_, h22⟩
      rw [h21, min_eq_right (by omega), min_eq_right (by omega)]
    · push_neg at hfull
      have hstep : createN ⟨l, cnt, N⟩ heap i (m + 1) =
          createN ⟨l ++ [i], cnt + 1, N⟩
            (heap ++ [{ id := i, type := .concept, name := "atom".take 63,
                        truth := { strength := 0.5, confidence := 0.5, count := 0 },
                        ref_count := 1, outgoing_links := [],
                        incoming_links := [] }]) (i + 1) m := by
        conv_lhs => rw [createN]
        simp [cognitive_atom_create, if_neg (not_le.mpr hfull)]
      rw [hstep]
      obtain ⟨h21, h22⟩ := ih (l ++ [i]) (cnt + 1) N _ (i + 1) hfull
      refine ⟨?_, h22⟩
      rw [h21]
      congr 1
      omega

/-- Claim C3: for a fresh Atomspace with `max_atoms = N`, each of the first
N `allocate` calls succeeds; the (N+1)-th fails with ResourceExhausted
leaving `atom_count` at N; and `atom_count` never exceeds `max_atoms`. -/
theorem claim_C3_capacity (N : ℕ) (heap : AtomHeap) (i : ℕ) :
    (∀ j, j < N →
      ((cognitive_atom_create (createN ⟨[], 0, N⟩ heap i j).1
          (createN ⟨[], 0, N⟩ heap i j).2.1
          (createN ⟨[], 0, N⟩ heap i j).2.2
          .concept (some "atom")).2.2.2).isOk = true) ∧
    (createN ⟨[], 0, N⟩ heap i N).1.atom_count = N ∧
    (cognitive_atom_create (createN ⟨[], 0, N⟩ heap i N).1
        (createN ⟨[], 0, N⟩ heap i N).2.1
        (createN ⟨[], 0, N⟩ heap i N).2.2
        .concept (some "atom")).2.2.2 = AtomCreateResult.resourceExhausted ∧
    (cognitive_atom_create (createN ⟨[], 0, N⟩ heap i N).1
        (createN ⟨[], 0, N⟩ heap i N).2.1
        (createN ⟨[], 0, N⟩ heap i N).2.2
        .concept (some "atom")).1.atom_count = N ∧
    (∀ n, (createN ⟨[], 0, N⟩ heap i n).1.atom_count ≤ N) := by
  have hstate : ∀ n, (createN ⟨[], 0, N⟩ heap i n).1.atom_count = min n N ∧
      (createN ⟨[], 0, N⟩ heap i n).1.max_atoms = N := by
    intro n
    have := createN_atom_count n [] 0 N heap i (Nat.zero_le N)
    simpa using this
  refine ⟨?_, ?_, ?_, ?_, ?_⟩
  · intro j hj
    have hcnt := (hstate j).1
    have hmax := (hstate j).2
    have hlt : (createN ⟨[], 0, N⟩ heap i j).1.atom_count <
        (createN ⟨[], 0, N⟩ heap i j).1.max_atoms := by
      omega
    simp [cognitive_atom_create, if_neg (not_le.mpr hlt), AtomCreateResult.isOk]
  · have := (hstate N).1
    omega
  · have hcnt := (hstate N).1
    have hmax := (hstate N).2
    have hge : (createN ⟨[], 0, N⟩ heap i N).1.max_atoms ≤
        (createN ⟨[], 0, N⟩ heap i N).1.atom_count := by
      omega
    simp [cognitive_atom_create, if_pos hge]
  · have hcnt := (hstate N).1
    have hmax := (hstate N).2
    have hge : (createN ⟨[], 0, N⟩ heap i N).1.max_atoms ≤
        (createN ⟨[], 0, N⟩ heap i N).1.atom_count := by
      omega
    simp [cognitive_atom_create, if_pos hge]
    omega
  · intro n
    have := (hstate n).1
    omega

/-- Witness for claim C3 at N = 2: the second call (index 1) succeeds, the
count after 2 calls is 2, and the third call is rejected by the capacity
check. -/
theorem claim_C3_witness :
    ((cognitive_atom_create (createN ⟨[], 0, 2⟩ [] 1 1).1
        (createN ⟨[], 0, 2⟩ [] 1 1).2.1
        (createN ⟨[], 0, 2⟩ [] 1 1).2.2
        .concept (some "atom")).2.2.2).isOk = true ∧
    (createN ⟨[], 0, 2⟩ [] 1 2).1.atom_count = 2 ∧
    (cognitive_atom_create (createN ⟨[], 0, 2⟩ [] 1 2).1
        (createN ⟨[], 0, 2⟩ [] 1 2).2.1
        (createN ⟨[], 0, 2⟩ [] 1 2).2.2
        .concept (some "atom")).2.2.2 = AtomCreateResult.resourceExhausted :=
  ⟨(claim_C3_capacity 2 [] 1).1 1 (by decide),
   (claim_C3_capacity 2 [] 1).2.1,
   (claim_C3_capacity 2 [] 1).2.2.1⟩

/-! Claim C8: the empty-name check.  The C code rejects only a NULL name
pointer; a pointer to the empty string passes the check and the atom is
created, so the claimed InvalidArgument failure does not happen. -/

/-- Claim C8 counterexample: in a fresh atomspace with free capacity,
`allocate(Concept, "")` with the empty (but non-NULL) name SUCCEEDS — the
returned atom is non-NULL and `atom_count` rises to 1 — contradicting the
claim that it fails with InvalidArgument and leaves the space unchanged. -/
theorem claim_C8_counterexample :
    ((cognitive_atom_create cognitive_atomspace_create [] 1
        .concept (some "")).2.2.2).isOk = true ∧
    (cognitive_atom_create cognitive_atomspace_create [] 1
        .concept (some "")).1.atom_count = 1 := by
  constructor <;> rfl

/-- Claim C8 amended: `allocate(type, name)` fails with InvalidArgument —
adding no atom and leaving `atom_count` unchanged — only when `name` is the
NULL pointer; an empty (zero-length) name is accepted: with free capacity
the call succeeds and increments `atom_count` by 1. -/
theorem claim_C8_amended (space : Atomspace) (heap : AtomHeap) (i : ℕ)
    (t : AtomType) :
    cognitive_atom_create space heap i t none =
      (space, heap, i, AtomCreateResult.invalidArgument) ∧
    (space.atom_count < space.max_atoms →
      ((cognitive_atom_create space heap i t (some "")).2.2.2).isOk = true ∧
      (cognitive_atom_create space heap i t (some "")).1.atom_count =
        space.atom_count + 1) := by
  refine ⟨rfl, ?_⟩
  intro hlt
  simp [cognitive_atom_create, if_neg (not_le.mpr hlt), AtomCreateResult.isOk]

/-- Witness for the amended claim C8 at a concrete space with capacity. -/
theorem claim_C8_amended_witness :
    cognitive_atom_create cognitive_atomspace_create [] 1 .concept none =
      (cognitive_atomspace_create, [], 1, AtomCreateResult.invalidArgument) ∧
    ((cognitive_atom_create cognitive_atomspace_create [] 1
        .concept (some "")).2.2.2).isOk = true ∧
    (cognitive_atom_create cognitive_atomspace_create [] 1
        .concept (some "")).1.atom_count =
      cognitive_atomspace_create.atom_count + 1 :=
  ⟨(claim_C8_amended cognitive_atomspace_create [] 1 .concept).1,
   (claim_C8_amended cognitive_atomspace_create [] 1 .concept).2 (by decide)⟩

/-! Claim C4: the membership invariant.  `cognitive_atom_destroy` frees an
atom whose reference count reaches zero but never removes its queue entry
from the owning atomspace and never decrements `space->atom_count`, so the
claimed equality between `atom_count` and the number of live member atoms
is broken by exactly that operation. -/

/-- Claim C4 failing input: create one atom (ref_count 1) in a fresh
atomspace, then call `cognitive_atom_destroy` on it.  The atom is freed,
yet the space still records `atom_count = 1` and still lists the dead id as
a member, while the number of live member atoms is 0 — the claimed
invariant `atom_count = number of live member atoms` fails. -/
theorem claim_C4_code_bug :
    cognitive_atom_destroy
      (cognitive_atom_create cognitive_atomspace_create [] 1
        .concept (some "cpu_load")).2.1 1 = [] ∧
    (cognitive_atom_create cognitive_atomspace_create [] 1
        .concept (some "cpu_load")).1.atom_count = 1 ∧
    (cognitive_atom_create cognitive_atomspace_create [] 1
        .concept (some "cpu_load")).1.atoms = [1] ∧
    liveMemberCount
      (cognitive_atom_create cognitive_atomspace_create [] 1
        .concept (some "cpu_load")).1
      (cognitive_atom_destroy
        (cognitive_atom_create cognitive_atomspace_create [] 1
          .concept (some "cpu_load")).2.1 1) = 0 := by
  refine ⟨rfl, rfl, rfl, rfl⟩

/-- Concrete atom used as the message content in the C6 witness state. -/
def atomA : Atom :=
  { id := 1, type := .concept, name := "cpu_load",
    truth := { strength := 0.9, confidence := 0.8, count := 1 },
    ref_count := 1, outgoing_links := [], incoming_links := [] }

/-! Claim C6: message send/receive round trip. -/

/-- Claim C6: for agents X and Y where Y's queue is initially empty,
`send(X, Y, m)` followed by `receive(Y)` yields content m, leaves
`Y.message_count` at 0, and leaves `X.messages_sent` and
`Y.messages_processed` each incremented by exactly 1 over their values
before the send (the code counts a message as "processed" at enqueue
time); `receive` on an agent with an empty queue returns success with NULL
content and changes nothing. -/
theorem claim_C6_messaging (k : Kern) (xId yId mId : ℕ) (X Y : Agent)
    (M : Atom)
    (hX : agentFind k.agents xId = some X)
    (hY : agentFind k.agents yId = some Y)
    (hM : heapFind k.heap mId = some M)
    (hne : xId ≠ yId)
    (hYq : Y.message_queue = []) (hYc : Y.message_count = 0) :
    (cognitive_agent_send_message k xId yId mId).2 = KernReturn.success ∧
    (cognitive_agent_receive_message
        (cognitive_agent_send_message k xId yId mId).1 yId).2.1 =
      KernReturn.success ∧
    (cognitive_agent_receive_message
        (cognitive_agent_send_message k xId yId mId).1 yId).2.2 =
      some mId ∧
    agentFind (cognitive_agent_receive_message
        (cognitive_agent_send_message k xId yId mId).1 yId).1.agents yId =
      some { Y with message_queue := [], message_count := 0,
                    messages_processed := Y.messages_processed + 1 } ∧
    agentFind (cognitive_agent_receive_message
        (cognitive_agent_send_message k xId yId mId).1 yId).1.agents xId =
      some { X with state := AgentState.communicating,
                    messages_sent := X.messages_sent + 1 } ∧
    cognitive_agent_receive_message k yId = (k, KernReturn.success, none) := by
  have hne' : yId ≠ xId := Ne.symm hne
  have hsend : cognitive_agent_send_message k xId yId mId =
      ({ k with
          agents := agentUpdate
            (agentUpdate k.agents xId
              (fun a => { a with state := .communicating,
                                 messages_sent := a.messages_sent + 1 }))
            yId
            (fun a => { a with
                message_queue := a.message_queue ++ [⟨xId, mId, 0, 0⟩],
                message_count := a.message_count + 1,
                messages_processed := a.messages_processed + 1 }),
          heap := heapUpdate k.heap mId
            (fun a => { a with ref_count := a.ref_count + 1 }) },
       KernReturn.success) := by
    simp only [cognitive_agent_send_message, hX, hY, hM]
  have hk1agents : (cognitive_agent_send_message k xId yId mId).1.agents =
      agentUpdate
        (agentUpdate k.agents xId
          (fun a => { a with state := .communicating,
                             messages_sent := a.messages_sent + 1 }))
        yId
        (fun a => { a with
            message_queue := a.message_queue ++ [⟨xId, mId, 0, 0⟩],
            message_count := a.message_count + 1,
            messages_processed := a.messages_processed + 1 }) := by
    rw [hsend]
  have hY1 : agentFind (cognitive_agent_send_message k xId yId mId).1.agents
      yId = some { Y with
        message_queue := [⟨xId, mId, 0, 0⟩],
        message_count := 1,
        messages_processed := Y.messages_processed + 1 } := by
    rw [hk1agents,
        agentFind_update_self _ yId
          (fun a => { a with
              message_queue := a.message_queue ++ [⟨xId, mId, 0, 0⟩],
              message_count := a.message_count + 1,
              messages_processed := a.messages_processed + 1 })
          (fun a => rfl),
        agentFind_update_ne _ xId yId
          (fun a => { a with state := .communicating,
                             messages_sent := a.messages_sent + 1 })
          (fun a => rfl) hne', hY]
    simp [hYq, hYc]
  have hX1 : agentFind (cognitive_agent_send_message k xId yId mId).1.agents
      xId = some { X with state := AgentState.communicating,
                          messages_sent := X.messages_sent + 1 } := by
    rw [hk1agents,
        agentFind_update_ne _ yId xId
          (fun a => { a with
              message_queue := a.message_queue ++ [⟨xId, mId, 0, 0⟩],
              message_count := a.message_count + 1,
              messages_processed := a.messages_processed + 1 })
          (fun a => rfl) hne,
        agentFind_update_self _ xId
          (fun a => { a with state := .communicating,
                             messages_sent := a.messages_sent + 1 })
          (fun a => rfl), hX]
    rfl
  have hrecv : cognitive_agent_receive_message
      (cognitive_agent_send_message k xId yId mId).1 yId =
      ({ (cognitive_agent_send_message k xId yId mId).1 with
          agents := agentUpdate
            (cognitive_agent_send_message k xId yId mId).1.agents yId
            (fun a => { a with message_queue := ([] : List Message),
                               message_count := a.message_count - 1 }) },
       KernReturn.success, some mId) := by
    simp only [cognitive_agent_receive_message, hY1]
  have hY2 : agentFind (cognitive_agent_receive_message
      (cognitive_agent_send_message k xId yId mId).1 yId).1.agents yId =
      some { Y with message_queue := [], message_count := 0,
                    messages_processed := Y.messages_processed + 1 } := by
    rw [hrecv]
    show agentFind (agentUpdate _ yId _) yId = _
    rw [agentFind_update_self _ yId
          (fun a => { a with message_queue := ([] : List Message),
                             message_count := a.message_count - 1 })
          (fun a => rfl), hY1]
    rfl
  have hX2 : agentFind (cognitive_agent_receive_message
      (cognitive_agent_send_message k xId yId mId).1 yId).1.agents xId =
      some { X with state := AgentState.communicating,
                    messages_sent := X.messages_sent + 1 } := by
    rw [hrecv]
    show agentFind (agentUpdate _ yId _) xId = _
    rw [agentFind_update_ne _ yId xId
          (fun a => { a with message_queue := ([] : List Message),
                             message_count := a.message_count - 1 })
          (fun a => rfl) hne, hX1]
  have hempty : cognitive_agent_receive_message k yId =
      (k, KernReturn.success, none) := by
    simp only [cognitive_agent_receive_message, hY, hYq]
  exact ⟨by rw [hsend], by rw [hrecv], by rw [hrecv], hY2, hX2, hempty⟩

/-- Concrete sender agent for the C6 witness. -/
def agentMonitor : Agent :=
  { id := 1, name := "monitor", state := .idle, goals := [], beliefs := [],
    knowledge := [], message_queue := [], message_count := 0, plans := [],
    current_plan := none, reasoning_cycles := 0, actions_executed := 0,
    messages_processed := 0, messages_sent := 0 }

/-- Concrete recipient agent for the C6 witness. -/
def agentOptimizer : Agent :=
  { id := 2, name := "optimizer", state := .idle, goals := [], beliefs := [],
    knowledge := [], message_queue := [], message_count := 0, plans := [],
    current_plan := none, reasoning_cycles := 0, actions_executed := 0,
    messages_processed := 0, messages_sent := 0 }

/-- Concrete global state for the C6 witness: two idle agents and one
content atom in the shared space. -/
def kernC6 : Kern :=
  { heap := [atomA], next_atom_id := 2,
    space := { atoms := [1], atom_count := 1, max_atoms := 10000 },
    agents := [agentMonitor, agentOptimizer], agent_count := 2,
    rules := [], rule_count := 0, plan_store := [], next_plan_id := 1 }

/-- Witness for claim C6 on the concrete two-agent state. -/
theorem claim_C6_witness :
    (cognitive_agent_send_message kernC6 1 2 1).2 = KernReturn.success ∧
    (cognitive_agent_receive_message
        (cognitive_agent_send_message kernC6 1 2 1).1 2).2.2 = some 1 ∧
    agentFind (cognitive_agent_receive_message
        (cognitive_agent_send_message kernC6 1 2 1).1 2).1.agents 2 =
      some { agentOptimizer with
             message_queue := [], message_count := 0,
             messages_processed := agentOptimizer.messages_processed + 1 } ∧
    cognitive_agent_receive_message kernC6 2 =
      (kernC6, KernReturn.success, none) :=
  ⟨(claim_C6_messaging kernC6 1 2 1 agentMonitor agentOptimizer atomA
      rfl rfl rfl (by decide) rfl rfl).1,
   (claim_C6_messaging kernC6 1 2 1 agentMonitor agentOptimizer atomA
      rfl rfl rfl (by decide) rfl rfl).2.2.1,
   (claim_C6_messaging kernC6 1 2 1 agentMonitor agentOptimizer atomA
      rfl rfl rfl (by decide) rfl rfl).2.2.2.1,
   (claim_C6_messaging kernC6 1 2 1 agentMonitor agentOptimizer atomA
      rfl rfl rfl (by decide) rfl rfl).2.2.2.2.2⟩

/-! Claim C9: lock ordering in `cognitive_agent_apply_rules`.  The source
acquires the agent lock (line 953) and then the Agency lock (line 957)
while the agent lock is still held, releasing them in LIFO order (lines
989, 992) — the two critical sections are nested, not disjoint. -/

/-- Claim C9 counterexample: after the first two lock events of
`cognitive_agent_apply_rules` (agent id 0), the agent lock AND the Agency
lock are both held — refuting the claim that the agent lock is released
before the Agency lock is acquired and that the two are never held
simultaneously. -/
theorem claim_C9_counterexample :
    heldAfter (applyRulesLockTrace 0) 2 (isAgentLock 0) = true ∧
    heldAfter (applyRulesLockTrace 0) 2 isAgencyLock = true := by
  constructor <;> rfl

/-- Claim C9 amended: `apply_rules` acquires the agent lock first and then
acquires the Agency lock while the agent lock is still held (nested,
agent-before-Agency order); the Agency lock is released before the agent
lock; in particular both locks are held simultaneously between the second
and third events. -/
theorem claim_C9_amended (aid : ℕ) :
    applyRulesLockTrace aid =
      [LockEvent.acq (LockId.agentLock aid), LockEvent.acq LockId.agencyLock,
       LockEvent.rel LockId.agencyLock,
       LockEvent.rel (LockId.agentLock aid)] ∧
    heldAfter (applyRulesLockTrace aid) 1 (isAgentLock aid) = true ∧
    heldAfter (applyRulesLockTrace aid) 1 isAgencyLock = false ∧
    heldAfter (applyRulesLockTrace aid) 2 (isAgentLock aid) = true ∧
    heldAfter (applyRulesLockTrace aid) 2 isAgencyLock = true ∧
    heldAfter (applyRulesLockTrace aid) 3 (isAgentLock aid) = true ∧
    heldAfter (applyRulesLockTrace aid) 3 isAgencyLock = false ∧
    heldAfter (applyRulesLockTrace aid) 4 (isAgentLock aid) = false ∧
    heldAfter (applyRulesLockTrace aid) 4 isAgencyLock = false := by
  refine ⟨rfl, ?_, ?_, ?_, ?_, ?_, ?_, ?_, ?_⟩ <;>
    simp [heldAfter, applyRulesLockTrace, acqCount, relCount, isAgentLock,
          isAgencyLock, List.take, List.filter]

/-! Claim C2: plan creation and execution. -/

/-- The belief ids the planner generates actions for: those whose atom has
`strength > 0.5`. -/
def strongBeliefIds (heap : AtomHeap) (beliefs : List ℕ) : List ℕ :=
  beliefs.filter (fun bid =>
    match heapFind heap bid with
    | some b => decide ((0.5 : ℚ) < b.truth.strength)
    | none => false)

/-- The two fixed actions `cognitive_agent_create_plan` generates per
qualifying belief, in generation order. -/
def planActionsFor (goalId : ℕ) (bids : List ℕ) : List Action :=
  bids.flatMap (fun bid =>
    [{ name := "analyze_state", precondition := bid, effect := goalId,
       cost := 1, priority := 0, completed := false },
     { name := "execute_optimization", precondition := bid, effect := goalId,
       cost := 2, priority := 0, completed := false }])

theorem take63_analyze : ("analyze_state" : String).take 63 =
    "analyze_state" := rfl

theorem take63_optimize : ("execute_optimization" : String).take 63 =
    "execute_optimization" := rfl

theorem createPlanStep_skip (heap : AtomHeap) (goalId : ℕ) (p : Plan)
    (bid : ℕ) (hb : ∀ b, heapFind heap bid = some b →
      b.truth.strength ≤ (0.5 : ℚ)) :
    createPlanStep heap goalId p bid = p := by
  cases hfind : heapFind heap bid with
  | none => simp [createPlanStep, hfind]
  | some b => simp [createPlanStep, hfind, not_lt.mpr (hb b hfind)]

theorem createPlanStep_add (heap : AtomHeap) (goalId : ℕ) (p : Plan)
    (bid : ℕ) (b : Atom) (hfind : heapFind heap bid = some b)
    (hb : (0.5 : ℚ) < b.truth.strength) :
    createPlanStep heap goalId p bid =
      { p with
        actions := p.actions ++ planActionsFor goalId [bid],
        action_count := p.action_count + 2,
        total_cost := p.total_cost + 3 } := by
  have ha1 : cognitive_action_create (some "analyze_state") bid goalId 1 =
      some { name := "analyze_state", precondition := bid, effect := goalId,
             cost := 1, priority := 0, completed := false } := by
    simp only [cognitive_action_create]
    rw [if_neg (by norm_num), take63_analyze]
  have ha2 : cognitive_action_create (some "execute_optimization") bid goalId
      2 = some { name := "execute_optimization", precondition := bid,
                 effect := goalId, cost := 2, priority := 0,
                 completed := false } := by
    simp only [cognitive_action_create]
    rw [if_neg (by norm_num), take63_optimize]
  simp only [createPlanStep, hfind]
  rw [if_pos hb, ha1, ha2]
  show cognitive_plan_add_action (cognitive_plan_add_action p _) _ = _
  unfold cognitive_plan_add_action planActionsFor
  cases p with
  | mk pg pa pc pt pv =>
    simp [List.append_assoc]
    ring

theorem createPlan_fold (heap : AtomHeap) (goalId : ℕ) (beliefs : List ℕ) :
    ∀ p : Plan, beliefs.foldl (createPlanStep heap goalId) p =
      { p with
        actions := p.actions ++
          planActionsFor goalId (strongBeliefIds heap beliefs),
        action_count := p.action_count +
          2 * (strongBeliefIds heap beliefs).length,
        total_cost := p.total_cost +
          3 * ((strongBeliefIds heap beliefs).length : ℚ) } := by
  induction beliefs with
  | nil =>
    intro p
    cases p with
    | mk pg pa pc pt pv => simp [strongBeliefIds, planActionsFor]
  | cons bid rest ih =>
    intro p
    rw [List.foldl_cons]
    by_cases hstrong : ∃ b, heapFind heap bid = some b ∧
        (0.5 : ℚ) < b.truth.strength
    · obtain ⟨b, hfind, hb⟩ := hstrong
      rw [createPlanStep_add heap goalId p bid b hfind hb, ih]
      have hsb : strongBeliefIds heap (bid :: rest) =
          bid :: strongBeliefIds heap rest := by
        unfold strongBeliefIds
        rw [List.filter_cons_of_pos]
        rw [hfind]
        simpa using hb
      rw [hsb]
      cases p with
      | mk pg pa pc pt pv =>
        have hflat : planActionsFor goalId (bid :: strongBeliefIds heap rest)
            = planActionsFor goalId [bid] ++
              planActionsFor goalId (strongBeliefIds heap rest) := by
          simp [planActionsFor]
        simp only [hflat]
        simp [List.append_assoc, Plan.mk.injEq]
        constructor
        · omega
        · ring
    · push_neg at hstrong
      rw [createPlanStep_skip heap goalId p bid hstrong, ih]
      have hsb : strongBeliefIds heap (bid :: rest) =
          strongBeliefIds heap rest := by
        unfold strongBeliefIds
        rw [List.filter_cons_of_neg]
        cases hfind : heapFind heap bid with
        | none => simp
        | some b => simpa using hstrong b hfind
      rw [hsb]

theorem strongBeliefIds_update_ref (heap : AtomHeap) (gid : ℕ)
    (beliefs : List ℕ) :
    strongBeliefIds (heapUpdate heap gid
      (fun a => { a with ref_count := a.ref_count + 1 })) beliefs =
    strongBeliefIds heap beliefs := by
  unfold strongBeliefIds
  apply List.filter_congr
  intro bid _
  rw [heapFind_update heap gid bid
        (fun a => { a with ref_count := a.ref_count + 1 }) (fun a => rfl)]
  cases heapFind heap bid with
  | none => rfl
  | some b =>
    by_cases hb : b.id = gid <;> simp [hb]

theorem planActionsFor_cons (gid bid : ℕ) (rest : List ℕ) :
    planActionsFor gid (bid :: rest) =
      [{ name := "analyze_state", precondition := bid, effect := gid,
         cost := 1, priority := 0, completed := false },
       { name := "execute_optimization", precondition := bid, effect := gid,
         cost := 2, priority := 0, completed := false }] ++
      planActionsFor gid rest := by
  simp [planActionsFor]

theorem planActionsFor_length (gid : ℕ) (bids : List ℕ) :
    (planActionsFor gid bids).length = 2 * bids.length := by
  induction bids with
  | nil => rfl
  | cons b r ih =>
    rw [planActionsFor_cons]
    simp [ih]
    omega

theorem planActionsFor_uncompleted (gid : ℕ) (bids : List ℕ) :
    (planActionsFor gid bids).filter (fun a => !a.completed) =
      planActionsFor gid bids := by
  induction bids with
  | nil => rfl
  | cons b r ih =>
    rw [planActionsFor_cons, List.filter_append, ih]
    rfl

theorem executeFold (acts : List Action) :
    ∀ (n0 : ℕ) (acc : List Action),
      acts.foldl executePlanStep (n0, acc) =
        (n0 + (acts.filter (fun x => !x.completed)).length,
         acc ++ acts.map (fun x => { x with completed := true })) := by
  induction acts with
  | nil =>
    intro n0 acc
    simp
  | cons a rest ih =>
    intro n0 acc
    rw [List.foldl_cons]
    by_cases hc : a.completed
    · have hstep : executePlanStep (n0, acc) a = (n0, acc ++ [a]) := by
        simp [executePlanStep, hc]
      have hmap : ({ a with completed := true } : Action) = a := by
        cases a
        simp_all
      have hfa : (a :: rest).filter (fun x => !x.completed) =
          rest.filter (fun x => !x.completed) := by
        rw [List.filter_cons_of_neg]
        simp [hc]
      rw [hstep, ih, hfa, List.map_cons, hmap]
      simp
    · have hstep : executePlanStep (n0, acc) a =
          (n0 + 1, acc ++ [{ a with completed := true }]) := by
        simp [executePlanStep, hc]
      have hfa : (a :: rest).filter (fun x => !x.completed) =
          a :: rest.filter (fun x => !x.completed) := by
        rw [List.filter_cons_of_pos]
        simp [hc]
      rw [hstep, ih, hfa, List.map_cons]
      simp only [Prod.mk.injEq, List.length_cons]
      constructor
      · omega
      · simp

/-- Claim C2: `create_plan(agent, goal)` appends, for every belief with
`strength > 0.5`, exactly the two fixed actions "analyze_state" (cost 1)
and "execute_optimization" (cost 2), each with that belief as precondition
and the goal as effect, giving `action_count = 2k` and `total_cost = 3k`
for k qualifying beliefs; the plan becomes `current_plan` only if no
current plan exists; a subsequent `execute_plan` marks every action
completed, adds one `actions_executed` increment per newly completed
action, invalidates the plan and clears `current_plan`. -/
theorem claim_C2_planner (k : Kern) (aid goalId : ℕ) (ag : Agent) (G : Atom)
    (hag : agentFind k.agents aid = some ag)
    (hG : heapFind k.heap goalId = some G)
    (hplans : ∀ q ∈ k.plan_store, q.1 < k.next_plan_id) :
    (cognitive_agent_create_plan k aid goalId).2 = KernReturn.success ∧
    planFind (cognitive_agent_create_plan k aid goalId).1.plan_store
        k.next_plan_id =
      some { goal := goalId,
             actions :=
               planActionsFor goalId (strongBeliefIds k.heap ag.beliefs),
             action_count :=
               2 * (strongBeliefIds k.heap ag.beliefs).length,
             total_cost :=
               3 * ((strongBeliefIds k.heap ag.beliefs).length : ℚ),
             valid := true } ∧
    heapFind (cognitive_agent_create_plan k aid goalId).1.heap goalId =
      some { G with ref_count := G.ref_count + 1 } ∧
    agentFind (cognitive_agent_create_plan k aid goalId).1.agents aid =
      some { ag with
             plans := ag.plans ++ [k.next_plan_id],
             current_plan := match ag.current_plan with
               | none => some k.next_plan_id
               | some c => some c } ∧
    (ag.current_plan = none →
      (cognitive_agent_execute_plan
          (cognitive_agent_create_plan k aid goalId).1 aid).2 =
        KernReturn.success ∧
      planFind (cognitive_agent_execute_plan
          (cognitive_agent_create_plan k aid goalId).1 aid).1.plan_store
          k.next_plan_id =
        some { goal := goalId,
               actions :=
                 (planActionsFor goalId
                   (strongBeliefIds k.heap ag.beliefs)).map
                   (fun a => { a with completed := true }),
               action_count :=
                 2 * (strongBeliefIds k.heap ag.beliefs).length,
               total_cost :=
                 3 * ((strongBeliefIds k.heap ag.beliefs).length : ℚ),
               valid := false } ∧
      agentFind (cognitive_agent_execute_plan
          (cognitive_agent_create_plan k aid goalId).1 aid).1.agents aid =
        some { ag with
               plans := ag.plans ++ [k.next_plan_id],
               current_plan := none,
               actions_executed := ag.actions_executed +
                 2 * (strongBeliefIds k.heap ag.beliefs).length,
               state := AgentState.idle }) := by
  have hcp : cognitive_agent_create_plan k aid goalId =
      ({ k with
         heap := heapUpdate k.heap goalId
           (fun a => { a with ref_count := a.ref_count + 1 }),
         plan_store := k.plan_store ++
           [(k.next_plan_id,
             ag.beliefs.foldl
               (createPlanStep
                 (heapUpdate k.heap goalId
                   (fun a => { a with ref_count := a.ref_count + 1 }))
                 goalId)
               { goal := goalId, actions := [], action_count := 0,
                 total_cost := 0, valid := true })],
         next_plan_id := k.next_plan_id + 1,
         agents := agentUpdate k.agents aid (fun a =>
           { a with
             plans := a.plans ++ [k.next_plan_id],
             current_plan := match a.current_plan with
               | none => some k.next_plan_id
               | some c => some c }) },
       KernReturn.success) := by
    simp only [cognitive_agent_create_plan, hag, hG, cognitive_plan_create]
  have hfoldRaw : ag.beliefs.foldl
      (createPlanStep
        (heapUpdate k.heap goalId
          (fun a => { a with ref_count := a.ref_count + 1 }))
        goalId)
      { goal := goalId, actions := [], action_count := 0,
        total_cost := 0, valid := true } =
      { goal := goalId,
        actions := planActionsFor goalId (strongBeliefIds k.heap ag.beliefs),
        action_count := 2 * (strongBeliefIds k.heap ag.beliefs).length,
        total_cost := 3 * ((strongBeliefIds k.heap ag.beliefs).length : ℚ),
        valid := true } := by
    rw [createPlan_fold, strongBeliefIds_update_ref]
    simp
  have hplan1 : planFind
      (cognitive_agent_create_plan k aid goalId).1.plan_store
      k.next_plan_id =
      some { goal := goalId,
             actions :=
               planActionsFor goalId (strongBeliefIds k.heap ag.beliefs),
             action_count :=
               2 * (strongBeliefIds k.heap ag.beliefs).length,
             total_cost :=
               3 * ((strongBeliefIds k.heap ag.beliefs).length : ℚ),
             valid := true } := by
    rw [hcp]
    show planFind (k.plan_store ++ [(k.next_plan_id, _)]) k.next_plan_id = _
    rw [planFind_append_new _ _ _
          (fun q hq => Nat.ne_of_lt (hplans q hq)), hfoldRaw]
  have hheapGoal : heapFind
      (cognitive_agent_create_plan k aid goalId).1.heap goalId =
      some { G with ref_count := G.ref_count + 1 } := by
    rw [hcp]
    show heapFind (heapUpdate k.heap goalId _) goalId = _
    rw [heapFind_update_self _ goalId
          (fun a => { a with ref_count := a.ref_count + 1 })
          (fun a => rfl), hG]
    rfl
  have hagent1 : agentFind
      (cognitive_agent_create_plan k aid goalId).1.agents aid =
      some { ag with
             plans := ag.plans ++ [k.next_plan_id],
             current_plan := match ag.current_plan with
               | none => some k.next_plan_id
               | some c => some c } := by
    rw [hcp]
    show agentFind (agentUpdate k.agents aid _) aid = _
    rw [agentFind_update_self _ aid
          (fun a =>
            { a with
              plans := a.plans ++ [k.next_plan_id],
              current_plan := match a.current_plan with
                | none => some k.next_plan_id
                | some c => some c })
          (fun a => rfl), hag]
    rfl
  refine ⟨by rw [hcp], hplan1, hheapGoal, hagent1, ?_⟩
  intro hnone
  have hagent1' : agentFind
      (cognitive_agent_create_plan k aid goalId).1.agents aid =
      some { ag with
             plans := ag.plans ++ [k.next_plan_id],
             current_plan := some k.next_plan_id } := by
    rw [hagent1, hnone]
  have hfoldexec : (planActionsFor goalId
      (strongBeliefIds k.heap ag.beliefs)).foldl executePlanStep
      (0, ([] : List Action)) =
      (2 * (strongBeliefIds k.heap ag.beliefs).length,
       (planActionsFor goalId (strongBeliefIds k.heap ag.beliefs)).map
         (fun a => { a with completed := true })) := by
    rw [executeFold, planActionsFor_uncompleted, planActionsFor_length]
    simp
  have hexec : cognitive_agent_execute_plan
      (cognitive_agent_create_plan k aid goalId).1 aid =
      ({ (cognitive_agent_create_plan k aid goalId).1 with
         plan_store := planUpdate
           (cognitive_agent_create_plan k aid goalId).1.plan_store
           k.next_plan_id
           (fun _ =>
             { goal := goalId,
               actions :=
                 (planActionsFor goalId
                   (strongBeliefIds k.heap ag.beliefs)).map
                   (fun a => { a with completed := true }),
               action_count :=
                 2 * (strongBeliefIds k.heap ag.beliefs).length,
               total_cost :=
                 3 * ((strongBeliefIds k.heap ag.beliefs).length : ℚ),
               valid := false }),
         agents := agentUpdate
           (cognitive_agent_create_plan k aid goalId).1.agents aid
           (fun a =>
             { a with
               actions_executed := a.actions_executed +
                 2 * (strongBeliefIds k.heap ag.beliefs).length,
               current_plan := none,
               state := AgentState.idle }) },
       KernReturn.success) := by
    simp only [cognitive_agent_execute_plan, hagent1', hplan1, hfoldexec]
    simp
  have hexecStore : (cognitive_agent_execute_plan
      (cognitive_agent_create_plan k aid goalId).1 aid).1.plan_store =
      planUpdate
        (cognitive_agent_create_plan k aid goalId).1.plan_store
        k.next_plan_id
        (fun _ =>
          { goal := goalId,
            actions :=
              (planActionsFor goalId
                (strongBeliefIds k.heap ag.beliefs)).map
                (fun a => { a with completed := true }),
            action_count :=
              2 * (strongBeliefIds k.heap ag.beliefs).length,
            total_cost :=
              3 * ((strongBeliefIds k.heap ag.beliefs).length : ℚ),
            valid := false }) := by
    rw [hexec]
  have hexecAgents : (cognitive_agent_execute_plan
      (cognitive_agent_create_plan k aid goalId).1 aid).1.agents =
      agentUpdate
        (cognitive_agent_create_plan k aid goalId).1.agents aid
        (fun a =>
          { a with
            actions_executed := a.actions_executed +
              2 * (strongBeliefIds k.heap ag.beliefs).length,
            current_plan := none,
            state := AgentState.idle }) := by
    rw [hexec]
  refine ⟨by rw [hexec], ?_, ?_⟩
  · unfold planFind
    rw [hexecStore]
    show planFind (planUpdate _ k.next_plan_id _) k.next_plan_id = _
    rw [planFind_update_self, hplan1]
    rfl
  · unfold agentFind
    rw [hexecAgents]
    show agentFind (agentUpdate _ aid _) aid = _
    rw [agentFind_update_self _ aid
          (fun a =>
            { a with
              actions_executed := a.actions_executed +
                2 * (strongBeliefIds k.heap ag.beliefs).length,
              current_plan := none,
              state := AgentState.idle })
          (fun a => rfl), hagent1']
    rfl

/-- Concrete belief atom (strength 0.6) for the C2 witness — the
specification's planner scenario. -/
def atomBelief : Atom :=
  { id := 1, type := .belief, name := "cpu_high",
    truth := { strength := 0.6, confidence := 0.5, count := 0 },
    ref_count := 2, outgoing_links := [], incoming_links := [] }

/-- Concrete goal atom for the C2 witness. -/
def atomGoal : Atom :=
  { id := 2, type := .goal, name := "optimize",
    truth := { strength := 0.5, confidence := 0.5, count := 0 },
    ref_count := 2, outgoing_links := [], incoming_links := [] }

/-- Concrete planning agent for the C2 witness: one belief, no plan. -/
def agentPlanner : Agent :=
  { id := 1, name := "planner", state := .idle, goals := [2],
    beliefs := [1], knowledge := [], message_queue := [],
    message_count := 0, plans := [], current_plan := none,
    reasoning_cycles := 0, actions_executed := 0,
    messages_processed := 0, messages_sent := 0 }

/-- Concrete global state for the C2 witness. -/
def kernC2 : Kern :=
  { heap := [atomBelief, atomGoal], next_atom_id := 3,
    space := { atoms := [1, 2], atom_count := 2, max_atoms := 10000 },
    agents := [agentPlanner], agent_count := 1,
    rules := [], rule_count := 0, plan_store := [], next_plan_id := 1 }

/-- Witness for claim C2: the scenario with exactly one belief of strength
0.6 — the plan gets 2 actions with total cost 3, and executing it resets
`current_plan` with `actions_executed` bumped by 2. -/
theorem claim_C2_witness :
    strongBeliefIds kernC2.heap agentPlanner.beliefs = [1] ∧
    (cognitive_agent_create_plan kernC2 1 2).2 = KernReturn.success ∧
    planFind (cognitive_agent_create_plan kernC2 1 2).1.plan_store
        kernC2.next_plan_id =
      some { goal := 2,
             actions := planActionsFor 2
               (strongBeliefIds kernC2.heap agentPlanner.beliefs),
             action_count :=
               2 * (strongBeliefIds kernC2.heap agentPlanner.beliefs).length,
             total_cost :=
               3 * ((strongBeliefIds kernC2.heap
                 agentPlanner.beliefs).length : ℚ),
             valid := true } ∧
    (cognitive_agent_execute_plan
        (cognitive_agent_create_plan kernC2 1 2).1 1).2 =
      KernReturn.success ∧
    agentFind (cognitive_agent_execute_plan
        (cognitive_agent_create_plan kernC2 1 2).1 1).1.agents 1 =
      some { agentPlanner with
             plans := agentPlanner.plans ++ [kernC2.next_plan_id],
             current_plan := none,
             actions_executed := agentPlanner.actions_executed +
               2 * (strongBeliefIds kernC2.heap agentPlanner.beliefs).length,
             state := AgentState.idle } :=
  ⟨by norm_num [strongBeliefIds, heapFind, kernC2, agentPlanner, atomBelief,
                List.find?, List.filter],
   (claim_C2_planner kernC2 1 2 agentPlanner atomGoal rfl rfl
     (by intro q hq; simp [kernC2] at hq)).1,
   (claim_C2_planner kernC2 1 2 agentPlanner atomGoal rfl rfl
     (by intro q hq; simp [kernC2] at hq)).2.1,
   ((claim_C2_planner kernC2 1 2 agentPlanner atomGoal rfl rfl
     (by intro q hq; simp [kernC2] at hq)).2.2.2.2 rfl).1,
   ((claim_C2_planner kernC2 1 2 agentPlanner atomGoal rfl rfl
     (by intro q hq; simp [kernC2] at hq)).2.2.2.2 rfl).2.2⟩

/-! The intrusive queue chains.  Claims C1, C5 and C10 exercise operations
that enter one node into a second queue while the first still references
it; the list level is not faithful there, so those operations are analysed
on the pointer chains themselves. -/

/-- Modelled from the spec: the Mach queue package `kern/queue.h`, included
by `cognitive_agency.h` but absent from the provided sources.  A queue is a
doubly linked ring of `queue_entry` cells; every queue head and every
node's embedded `queue_chain_t` field is one such cell, and `next` and
`prev` are total maps over the cells.  `queue_init` leaves a head pointing
at itself both ways, which the identity maps of the initial states below
already do. -/
structure QueueState (α : Type) where
  nxt : α → α
  prv : α → α

/-- Modelled from the spec: `queue_enter(head, elt, type, field)` of
`kern/queue.h`, in program order: read `prev = head->prev`; write
`prev->next = elt` (when the head is its own `prev` the macro takes its
`head->next = elt` branch, writing the same cell); then `elt->prev = prev`,
`elt->next = head`, and `head->prev = elt`. -/
def queue_enter {α : Type} [DecidableEq α] (s : QueueState α)
    (head elt : α) : QueueState α :=
  let p := s.prv head
  { nxt := Function.update (Function.update s.nxt p elt) elt head,
    prv := Function.update (Function.update s.prv elt p) head elt }

/-- Modelled from the spec: the successive values taken by the iteration
variable of `queue_iterate(head, elt, type, field)` of `kern/queue.h`,
which starts at `head->next`, advances through `elt->field.next`, and stops
only when the variable becomes the queue head itself.  `queueIter s a n`
is the cell reached after `n` further `next` steps from `a`. -/
def queueIter {α : Type} (s : QueueState α) : α → ℕ → α
  | a, 0 => a
  | a, n + 1 => queueIter s (s.nxt a) n

/-- The queue cells touched by the C5 scenario: the four link-queue heads
of the two atoms A and B, and the single link node that
`cognitive_atom_create_link(A, B)` allocates. -/
inductive LinkCell where
  | aOutHead
  | aInHead
  | bOutHead
  | bInHead
  | linkNode
  deriving DecidableEq

/-- Chains after creating atoms A and B: each link-queue head is self
linked (`queue_init` in `cognitive_atom_create`); the link node's cell is
never read before `queue_enter` first writes it, so its initial value is
immaterial. -/
def linkS0 : QueueState LinkCell := { nxt := id, prv := id }

/-- Chains after `queue_enter(&from->outgoing_links, link, ...)`
(cognitive_agency.c:642), the first half of `cognitive_atom_create_link`:
the intended ring through A's outgoing head and the link node. -/
def linkS1 : QueueState LinkCell :=
  queue_enter linkS0 LinkCell.aOutHead LinkCell.linkNode

/-- Chains after `queue_enter(&to->incoming_links, link, ...)`
(cognitive_agency.c:648), the second half of `cognitive_atom_create_link`,
entering the SAME node — the same embedded chain field — into B's incoming
queue. -/
def linkS2 : QueueState LinkCell :=
  queue_enter linkS1 LinkCell.bInHead LinkCell.linkNode

/-- Claim C5, settled against the code at the claim's own input: two fresh
atoms A and B, then `create_link(A, B, t, s)`.  In order of the conjuncts:
after the first `queue_enter` alone, A's outgoing queue is the intended
ring A.outgoing → link → A.outgoing (the state under which the claimed
`count_links(A) = 1` would hold); the second `queue_enter` re-splices the
shared chain, leaving A's outgoing head pointing at the link node while the
node now points at B's incoming head and B's incoming head points back at
the node; consequently the outgoing traversal of `count_links(A)`
(`queue_iterate`, cognitive_agency.c:712) never returns to its sentinel —
after any number of steps the iteration variable is never A's outgoing
head — so `count_links(A)` does not terminate, and none of the claimed
outcomes (counts of 1, the restoring `remove_link`, the second call's
InvalidArgument) is produced. -/
theorem claim_C5_code_bug :
    (linkS1.nxt LinkCell.aOutHead = LinkCell.linkNode ∧
     linkS1.nxt LinkCell.linkNode = LinkCell.aOutHead) ∧
    (linkS2.nxt LinkCell.aOutHead = LinkCell.linkNode ∧
     linkS2.nxt LinkCell.linkNode = LinkCell.bInHead ∧
     linkS2.nxt LinkCell.bInHead = LinkCell.linkNode) ∧
    (∀ n : ℕ, queueIter linkS2 (linkS2.nxt LinkCell.aOutHead) n ≠
      LinkCell.aOutHead) := by
  have h0 : linkS2.nxt LinkCell.aOutHead = LinkCell.linkNode := by decide
  have h1 : linkS2.nxt LinkCell.linkNode = LinkCell.bInHead := by decide
  have h2 : linkS2.nxt LinkCell.bInHead = LinkCell.linkNode := by decide
  have hcyc : ∀ n : ℕ, ∀ a : LinkCell,
      (a = LinkCell.linkNode ∨ a = LinkCell.bInHead) →
      (queueIter linkS2 a n = LinkCell.linkNode ∨
       queueIter linkS2 a n = LinkCell.bInHead) := by
    intro n
    induction n with
    | zero =>
      intro a ha
      simpa [queueIter] using ha
    | succ m ih =>
      intro a ha
      have hstep : queueIter linkS2 a (m + 1) =
          queueIter linkS2 (linkS2.nxt a) m := rfl
      rcases ha with rfl | rfl
      · rw [hstep, h1]
        exact ih LinkCell.bInHead (Or.inr rfl)
      · rw [hstep, h2]
        exact ih LinkCell.linkNode (Or.inl rfl)
  refine ⟨⟨by decide, by decide⟩, ⟨h0, h1, h2⟩, ?_⟩
  intro n hn
  rcases hcyc n (linkS2.nxt LinkCell.aOutHead) (Or.inl h0) with hc | hc
  · rw [hn] at hc
    exact absurd hc (by decide)
  · rw [hn] at hc
    exact absurd hc (by decide)

/-- The queue cells touched by the scenario shared by claims C1 and C10
(the specification's worked example): the atomspace member queue head
`space->atoms`, the agent's `beliefs` and `knowledge` queue heads, the
Concept belief atom "cpu_load", and the conclusion atom
"inferred_knowledge" that `apply_rules` allocates.  The goal and message
queues play no part. -/
inductive RuleCell where
  | spaceHead
  | beliefsHead
  | knowledgeHead
  | cpuLoad
  | newAtom
  deriving DecidableEq

/-- Chains with every queue head freshly initialised (self linked); the two
atom cells are not yet allocated and are never read before first
written. -/
def ruleS0 : QueueState RuleCell := { nxt := id, prv := id }

/-- Chains after `cognitive_atom_create(space, CONCEPT, "cpu_load")`:
`queue_enter(&space->atoms, atom, ...)` (cognitive_agency.c:181). -/
def ruleS1 : QueueState RuleCell :=
  queue_enter ruleS0 RuleCell.spaceHead RuleCell.cpuLoad

/-- Chains after `cognitive_agent_add_belief(monitor, cpu_load)`:
`queue_enter(&agent->beliefs, belief, ...)` (cognitive_agency.c:403) on the
same embedded chain field.  The space queue is now stale: its head still
points at the belief both ways, while the belief's chain belongs to the
beliefs queue. -/
def ruleS2 : QueueState RuleCell :=
  queue_enter ruleS1 RuleCell.beliefsHead RuleCell.cpuLoad

/-- Chains after the first body of the belief loop of `apply_rules`
(cognitive_agency.c:961) creates the conclusion atom:
`queue_enter(&space->atoms, atom, ...)` inside `cognitive_atom_create`
(cognitive_agency.c:181) writes through the space queue's stale `prev` —
the belief currently being iterated — redirecting the belief's chain at the
new atom. -/
def ruleS3 : QueueState RuleCell :=
  queue_enter ruleS2 RuleCell.spaceHead RuleCell.newAtom

/-- Chains after `queue_enter(&agent->knowledge, new_atom, ...)`
(cognitive_agency.c:980), which completes the loop body. -/
def ruleS4 : QueueState RuleCell :=
  queue_enter ruleS3 RuleCell.knowledgeHead RuleCell.newAtom

/-- After the loop body, every cell `next`-reachable from the conclusion
atom stays inside the two-cell cycle formed by the conclusion atom and the
knowledge head. -/
theorem ruleS4_cycle (n : ℕ) (a : RuleCell)
    (ha : a = RuleCell.newAtom ∨ a = RuleCell.knowledgeHead) :
    queueIter ruleS4 a n = RuleCell.newAtom ∨
      queueIter ruleS4 a n = RuleCell.knowledgeHead := by
  induction n generalizing a with
  | zero => simpa [queueIter] using ha
  | succ m ih =>
    have hstep : queueIter ruleS4 a (m + 1) =
        queueIter ruleS4 (ruleS4.nxt a) m := rfl
    have hna : ruleS4.nxt RuleCell.newAtom = RuleCell.knowledgeHead := by
      decide
    have hnk : ruleS4.nxt RuleCell.knowledgeHead = RuleCell.newAtom := by
      decide
    rcases ha with rfl | rfl
    · rw [hstep, hna]
      exact ih RuleCell.knowledgeHead (Or.inr rfl)
    · rw [hstep, hnk]
      exact ih RuleCell.newAtom (Or.inl rfl)

/-- Claim C1, settled against the code at the claim's own scenario (the
atomspace's Concept belief "cpu_load" entered into the agent's beliefs
queue, one registered rule matching it).  In order of the conjuncts: when
`apply_rules` starts, the beliefs queue is the intact ring
beliefs → cpu_load → beliefs, so the belief loop begins at the belief; the
space queue's `prev` is stale — it is the belief itself; creating the
conclusion atom therefore redirects the iterated belief's chain at the new
atom; after the body, the new atom and the knowledge head form a two-cell
`next` cycle; hence the belief loop's continuation never reaches the
beliefs sentinel — `queue_iterate` (cognitive_agency.c:961) never
terminates, and `apply_rules` never produces the claimed outcome (one new
knowledge atom with scaled truth, `times_applied` incremented, return
Success). -/
theorem claim_C1_code_bug :
    ruleS2.nxt RuleCell.beliefsHead = RuleCell.cpuLoad ∧
    ruleS2.nxt RuleCell.cpuLoad = RuleCell.beliefsHead ∧
    ruleS2.prv RuleCell.spaceHead = RuleCell.cpuLoad ∧
    ruleS3.nxt RuleCell.cpuLoad = RuleCell.newAtom ∧
    ruleS4.nxt RuleCell.newAtom = RuleCell.knowledgeHead ∧
    ruleS4.nxt RuleCell.knowledgeHead = RuleCell.newAtom ∧
    ∀ n : ℕ, queueIter ruleS4 (ruleS4.nxt RuleCell.cpuLoad) n ≠
      RuleCell.beliefsHead := by
  refine ⟨by decide, by decide, by decide, by decide, by decide, by decide,
          ?_⟩
  intro n hn
  have h0 : ruleS4.nxt RuleCell.cpuLoad = RuleCell.newAtom := by decide
  rcases ruleS4_cycle n (ruleS4.nxt RuleCell.cpuLoad) (Or.inl h0) with hc | hc
  · rw [hn] at hc
    exact absurd hc (by decide)
  · rw [hn] at hc
    exact absurd hc (by decide)

/-- Claim C10, settled against the code at a reachable input.  `reason()`
discards the result of `apply_rules` and would return Success — but for
the agent of the specification's scenario (a matching rule and a belief
living in both the atomspace and the beliefs queue), the `apply_rules`
call of phase 2 traps its belief iteration: the belief's chain now points
at the conclusion atom, and from the conclusion atom every further iterate
is the conclusion atom or the knowledge head, never the beliefs sentinel
the loop condition compares against.  `apply_rules` — and with it
`reason()` — never returns at that input, let alone returns Success with
`reasoning_cycles` incremented and the agent left Idle. -/
theorem claim_C10_code_bug :
    ruleS4.nxt RuleCell.cpuLoad = RuleCell.newAtom ∧
    ∀ n : ℕ,
      (queueIter ruleS4 RuleCell.newAtom n = RuleCell.newAtom ∨
       queueIter ruleS4 RuleCell.newAtom n = RuleCell.knowledgeHead) ∧
      queueIter ruleS4 RuleCell.newAtom n ≠ RuleCell.beliefsHead := by
  refine ⟨by decide, ?_⟩
  intro n
  have hc := ruleS4_cycle n RuleCell.newAtom (Or.inl rfl)
  refine ⟨hc, ?_⟩
  intro hn
  rcases hc with hc | hc
  · rw [hn] at hc
    exact absurd hc (by decide)
  · rw [hn] at hc
    exact absurd hc (by decide)

end CognitiveAgency
